import Mathlib

/-!
Verification of the client-side map/filter synchronization behaviour of the
property-mapping front end.  The file gives shallow embeddings of the state
updates and fetch effects of the `PropertyMap` (Leaflet) component, the
`PropertyGoogleMap` (Google Maps) component and their panels, and proves
theorems about the specified behaviour.

Coordinates and prices are embedded as rationals: every finite JavaScript
double is a rational number, and the embedded code only compares them and
takes `Math.max` / `Math.min`, which are exact, order-theoretic operations.
-/

namespace MapApp

/-- A JavaScript value that may sit in a property's `location.lat` or
`location.lng` field: a finite number, `NaN`, `undefined` (also the result of
the optional chaining `property?.location?.lat` when `location` is missing),
or some other non-number value. -/
inductive JsVal where
  | num (q : ℚ)
  | nan
  | undef
  | other
deriving DecidableEq

/-- The `location` object of a property marker. -/
structure JsLocation where
  lat : JsVal
  lng : JsVal
deriving DecidableEq

/-- A property marker as consumed by the Leaflet `PropertyMap` bounds
computation; only the `location` field is read there. -/
structure JsProperty where
  location : Option JsLocation
deriving DecidableEq

/-- The numeric value of a JavaScript value when it passes the guard
`typeof v === 'number' && !isNaN(v)` used throughout `PropertyMap`. -/
def numOf : JsVal → Option ℚ
  | .num q => some q
  | _ => none

/-- The coordinate pair of a property when both `location.lat` and
`location.lng` are numeric and non-NaN (the guard of the bounds-recompute
effect, `PropertyMap` lines 144-148). -/
def validLoc (p : JsProperty) : Option (ℚ × ℚ) :=
  match p.location with
  | none => none
  | some loc =>
    match numOf loc.lat, numOf loc.lng with
    | some la, some ln => some (la, ln)
    | _, _ => none

/-- The coordinate pairs of exactly the properties with valid numeric
locations, in order. -/
def validLocs (ps : List JsProperty) : List (ℚ × ℚ) :=
  ps.filterMap validLoc

/-- Leaflet bounds value `[[south, west], [north, east]]`. -/
abbrev Bounds := (ℚ × ℚ) × (ℚ × ℚ)

/-- Accumulator of the `forEach` loop of the bounds-recompute effect:
the four running extremes and the count of valid locations. -/
structure FoldAcc where
  north : ℚ
  south : ℚ
  east : ℚ
  west : ℚ
  validCount : ℕ
deriving DecidableEq

/-- One iteration of the `forEach` loop (`PropertyMap` lines 144-155): a
property with a valid numeric location extends the running extremes with
`Math.max` / `Math.min` and bumps `validLocationsCount`; any other property
is skipped. -/
def boundsFoldStep (acc : FoldAcc) (p : JsProperty) : FoldAcc :=
  match validLoc p with
  | some (la, ln) =>
    { north := max acc.north la, south := min acc.south la,
      east := max acc.east ln, west := min acc.west ln,
      validCount := acc.validCount + 1 }
  | none => acc

/-- The seed values of the loop: `north = -90, south = 90, east = -180,
west = 180, validLocationsCount = 0` (`PropertyMap` lines 138-142). -/
def initialFoldAcc : FoldAcc :=
  { north := -90, south := 90, east := -180, west := 180, validCount := 0 }

/-- The bounds computed from a property-marker list (`PropertyMap` lines
137-159): the loop over the properties followed by
`if (validLocationsCount > 0) setMapBounds([[south, west], [north, east]])`;
`none` means `setMapBounds` is not called. -/
def computeMarkerBounds (ps : List JsProperty) : Option Bounds :=
  if 0 < (ps.foldl boundsFoldStep initialFoldAcc).validCount then
    some (((ps.foldl boundsFoldStep initialFoldAcc).south,
           (ps.foldl boundsFoldStep initialFoldAcc).west),
          ((ps.foldl boundsFoldStep initialFoldAcc).north,
           (ps.foldl boundsFoldStep initialFoldAcc).east))
  else none

/-- The whole bounds-recompute effect (`PropertyMap` lines 131-160), as a
function from the current `propertyMarkers.properties` value and the current
`mapBounds` value to the `mapBounds` value after the effect.  The early
return `if (!propertyMarkers?.properties || !Array.isArray(...) ||
properties.length === 0 || mapBounds !== null) return;` leaves the state
unchanged. -/
def boundsRecomputeEffect (propertyMarkers : Option (List JsProperty))
    (mapBounds : Option Bounds) : Option Bounds :=
  if propertyMarkers.isNone || (propertyMarkers.getD []).isEmpty || mapBounds.isSome then
    mapBounds
  else
    match computeMarkerBounds (propertyMarkers.getD []) with
    | some b => some b
    | none => mapBounds

/-! ### Spec-side bounding box

`specBoundingBox` is written from the specification's words ("computed
bounding box of the current property set": the box
`[[min lat, min lng], [max lat, max lng]]` over the valid coordinates), to be
compared with `computeMarkerBounds`, which is translated from the code. -/

/-- The least element of a list of rationals, `none` for the empty list. -/
def listMin : List ℚ → Option ℚ
  | [] => none
  | x :: xs => some (xs.foldl min x)

/-- The greatest element of a list of rationals, `none` for the empty list. -/
def listMax : List ℚ → Option ℚ
  | [] => none
  | x :: xs => some (xs.foldl max x)

/-- The bounding box `[[min lat, min lng], [max lat, max lng]]` of a list of
coordinate pairs, as the specification describes it. -/
def specBoundingBox (locs : List (ℚ × ℚ)) : Option Bounds :=
  match listMin (locs.map Prod.fst), listMin (locs.map Prod.snd),
        listMax (locs.map Prod.fst), listMax (locs.map Prod.snd) with
  | some s, some w, some n, some e => some ((s, w), (n, e))
  | _, _, _, _ => none

/-! ### Fold lemmas for the bounds computation -/

/-- The loop step restricted to already-validated coordinate pairs. -/
def locFoldStep (acc : FoldAcc) (q : ℚ × ℚ) : FoldAcc :=
  { north := max acc.north q.1, south := min acc.south q.1,
    east := max acc.east q.2, west := min acc.west q.2,
    validCount := acc.validCount + 1 }

lemma boundsFold_eq_locFold (ps : List JsProperty) (acc : FoldAcc) :
    ps.foldl boundsFoldStep acc = (validLocs ps).foldl locFoldStep acc := by
  induction ps generalizing acc with
  | nil => rfl
  | cons p ps ih =>
    rw [List.foldl_cons]
    show ps.foldl boundsFoldStep (boundsFoldStep acc p)
        = ((p :: ps).filterMap validLoc).foldl locFoldStep acc
    rw [List.filterMap_cons]
    cases h : validLoc p with
    | none =>
      simp only [boundsFoldStep, h]
      exact ih acc
    | some q =>
      obtain ⟨la, ln⟩ := q
      simp only [boundsFoldStep, h, List.foldl_cons]
      exact ih _

lemma locFold_north (locs : List (ℚ × ℚ)) (acc : FoldAcc) :
    (locs.foldl locFoldStep acc).north = (locs.map Prod.fst).foldl max acc.north := by
  induction locs generalizing acc with
  | nil => rfl
  | cons q qs ih => simp [locFoldStep, ih]

lemma locFold_south (locs : List (ℚ × ℚ)) (acc : FoldAcc) :
    (locs.foldl locFoldStep acc).south = (locs.map Prod.fst).foldl min acc.south := by
  induction locs generalizing acc with
  | nil => rfl
  | cons q qs ih => simp [locFoldStep, ih]

lemma locFold_east (locs : List (ℚ × ℚ)) (acc : FoldAcc) :
    (locs.foldl locFoldStep acc).east = (locs.map Prod.snd).foldl max acc.east := by
  induction locs generalizing acc with
  | nil => rfl
  | cons q qs ih => simp [locFoldStep, ih]

lemma locFold_west (locs : List (ℚ × ℚ)) (acc : FoldAcc) :
    (locs.foldl locFoldStep acc).west = (locs.map Prod.snd).foldl min acc.west := by
  induction locs generalizing acc with
  | nil => rfl
  | cons q qs ih => simp [locFoldStep, ih]

lemma locFold_count (locs : List (ℚ × ℚ)) (acc : FoldAcc) :
    (locs.foldl locFoldStep acc).validCount = acc.validCount + locs.length := by
  induction locs generalizing acc with
  | nil => rfl
  | cons q qs ih => simp [locFoldStep, ih]; omega

lemma foldl_max_max (l : List ℚ) (a b : ℚ) :
    l.foldl max (max a b) = max a (l.foldl max b) := by
  induction l generalizing b with
  | nil => rfl
  | cons x xs ih =>
    rw [List.foldl_cons, List.foldl_cons, max_assoc]
    exact ih (max b x)

lemma foldl_min_min (l : List ℚ) (a b : ℚ) :
    l.foldl min (min a b) = min a (l.foldl min b) := by
  induction l generalizing b with
  | nil => rfl
  | cons x xs ih =>
    rw [List.foldl_cons, List.foldl_cons, min_assoc]
    exact ih (min b x)

lemma foldl_max_mem (l : List ℚ) (a : ℚ) : l.foldl max a ∈ a :: l := by
  induction l generalizing a with
  | nil => simp
  | cons x xs ih =>
    rw [List.foldl_cons]
    rcases List.mem_cons.mp (ih (max a x)) with h1 | h1
    · rcases max_choice a x with hc | hc
      · rw [h1, hc]; exact List.mem_cons_self _ _
      · rw [h1, hc]; exact List.mem_cons_of_mem _ (List.mem_cons_self _ _)
    · exact List.mem_cons_of_mem _ (List.mem_cons_of_mem _ h1)

lemma foldl_min_mem (l : List ℚ) (a : ℚ) : l.foldl min a ∈ a :: l := by
  induction l generalizing a with
  | nil => simp
  | cons x xs ih =>
    rw [List.foldl_cons]
    rcases List.mem_cons.mp (ih (min a x)) with h1 | h1
    · rcases min_choice a x with hc | hc
      · rw [h1, hc]; exact List.mem_cons_self _ _
      · rw [h1, hc]; exact List.mem_cons_of_mem _ (List.mem_cons_self _ _)
    · exact List.mem_cons_of_mem _ (List.mem_cons_of_mem _ h1)

/-! ### C4 — bounds recomputed only when not already set -/

/-- C4: the bounds-recompute effect never overwrites existing bounds: whenever
`mapBounds` is non-null, the effect leaves it unchanged, for every
property-marker list. -/
theorem boundsRecompute_preserves_existing
    (propertyMarkers : Option (List JsProperty)) (b : Bounds) :
    boundsRecomputeEffect propertyMarkers (some b) = some b := by
  simp [boundsRecomputeEffect]

/-! ### C3 — computed bounds versus the bounding box -/

/-- A property whose latitude is the (out-of-range) number `-100`. -/
def latOutOfRangeProperty : JsProperty :=
  { location := some { lat := .num (-100), lng := .num 0 } }

/-- C3 counterexample: for the one-property list with numeric, non-NaN
location `(-100, 0)`, the computed bounds are `[[-100, 0], [-90, 0]]`
(the seed `-90` survives as "north"), while the bounding box of the valid
locations is `[[-100, 0], [-100, 0]]`; the claim's equality fails at this
input. -/
theorem computeMarkerBounds_ne_boundingBox :
    computeMarkerBounds [latOutOfRangeProperty] = some ((-100, 0), (-90, 0)) ∧
    specBoundingBox (validLocs [latOutOfRangeProperty]) = some ((-100, 0), (-100, 0)) ∧
    computeMarkerBounds [latOutOfRangeProperty]
      ≠ specBoundingBox (validLocs [latOutOfRangeProperty]) := by
  refine ⟨by decide, by decide, by decide⟩

/-- C3 (amended): when every valid coordinate lies in the usual ranges
(latitude in `[-90, 90]`, longitude in `[-180, 180]`), the computed bounds
equal the bounding box `[[min lat, min lng], [max lat, max lng]]` taken over
exactly the properties with valid numeric locations; properties with missing
or non-numeric locations do not affect the result, and no bounds are produced
when no property has a valid location. -/
theorem computeMarkerBounds_eq_boundingBox (ps : List JsProperty)
    (hrange : ∀ q ∈ validLocs ps,
      -90 ≤ q.1 ∧ q.1 ≤ 90 ∧ -180 ≤ q.2 ∧ q.2 ≤ 180) :
    computeMarkerBounds ps = specBoundingBox (validLocs ps) := by
  have hfold := boundsFold_eq_locFold ps initialFoldAcc
  cases hv : validLocs ps with
  | nil =>
    rw [hv] at hfold
    simp only [List.foldl_nil] at hfold
    rw [computeMarkerBounds, hfold]
    simp [initialFoldAcc, specBoundingBox, listMin, listMax]
  | cons q qs =>
    rw [hv] at hfold
    have hmemLat : ∀ y ∈ q.1 :: qs.map Prod.fst, -90 ≤ y ∧ y ≤ 90 := by
      intro y hy
      have : y ∈ (q :: qs).map Prod.fst := by
        rw [List.map_cons]; exact hy
      obtain ⟨q0, hq0, rfl⟩ := List.mem_map.mp this
      have := hrange q0 (by rw [hv]; exact hq0)
      exact ⟨this.1, this.2.1⟩
    have hmemLng : ∀ y ∈ q.2 :: qs.map Prod.snd, -180 ≤ y ∧ y ≤ 180 := by
      intro y hy
      have : y ∈ (q :: qs).map Prod.snd := by
        rw [List.map_cons]; exact hy
      obtain ⟨q0, hq0, rfl⟩ := List.mem_map.mp this
      have := hrange q0 (by rw [hv]; exact hq0)
      exact ⟨this.2.2.1, this.2.2.2⟩
    have hN : (ps.foldl boundsFoldStep initialFoldAcc).north
        = (qs.map Prod.fst).foldl max q.1 := by
      rw [hfold, locFold_north]
      show ((q :: qs).map Prod.fst).foldl max (-90) = _
      rw [List.map_cons, List.foldl_cons, foldl_max_max]
      exact max_eq_right (hmemLat _ (foldl_max_mem _ _)).1
    have hS : (ps.foldl boundsFoldStep initialFoldAcc).south
        = (qs.map Prod.fst).foldl min q.1 := by
      rw [hfold, locFold_south]
      show ((q :: qs).map Prod.fst).foldl min 90 = _
      rw [List.map_cons, List.foldl_cons, foldl_min_min]
      exact min_eq_right (hmemLat _ (foldl_min_mem _ _)).2
    have hE : (ps.foldl boundsFoldStep initialFoldAcc).east
        = (qs.map Prod.snd).foldl max q.2 := by
      rw [hfold, locFold_east]
      show ((q :: qs).map Prod.snd).foldl max (-180) = _
      rw [List.map_cons, List.foldl_cons, foldl_max_max]
      exact max_eq_right (hmemLng _ (foldl_max_mem _ _)).1
    have hW : (ps.foldl boundsFoldStep initialFoldAcc).west
        = (qs.map Prod.snd).foldl min q.2 := by
      rw [hfold, locFold_west]
      show ((q :: qs).map Prod.snd).foldl min 180 = _
      rw [List.map_cons, List.foldl_cons, foldl_min_min]
      exact min_eq_right (hmemLng _ (foldl_min_mem _ _)).2
    have hC : (ps.foldl boundsFoldStep initialFoldAcc).validCount = qs.length + 1 := by
      rw [hfold, locFold_count]
      simp [initialFoldAcc]
    rw [computeMarkerBounds, hN, hS, hE, hW, hC]
    simp only [Nat.succ_pos, if_pos]
    rfl

/-- A concrete marker list with two valid locations and two invalid ones. -/
def witnessMarkerList : List JsProperty :=
  [ { location := some { lat := .num 10, lng := .num 50 } },
    { location := none },
    { location := some { lat := .num 20, lng := .num 40 } },
    { location := some { lat := .nan, lng := .num 1 } } ]

/-- Witness for the amended C3 theorem at a concrete in-range marker list:
the computed bounds and the bounding box both evaluate to
`[[10, 40], [20, 50]]`. -/
theorem computeMarkerBounds_eq_boundingBox_witness :
    computeMarkerBounds witnessMarkerList = some ((10, 40), (20, 50)) ∧
    specBoundingBox (validLocs witnessMarkerList) = some ((10, 40), (20, 50)) := by
  refine ⟨by decide, ?_⟩
  rw [← computeMarkerBounds_eq_boundingBox witnessMarkerList (by decide)]
  decide

/-! ### C10 — toggling a GIS layer id -/

/-- `handleToggleLayer` of `PropertyGoogleMap` (lines 465-471); the inline
`onToggleLayer` of the Leaflet `PropertyMap` (lines 527-533) performs the
same update: remove the id when present, append it when absent. -/
def handleToggleLayer (layerId : String) (prev : List String) : List String :=
  if layerId ∈ prev then prev.filter (fun id => id ≠ layerId)
  else prev ++ [layerId]

/-- C10: toggling a layer id flips its membership in the enabled-layer list
(removed entirely when present, appended when absent), and toggling the same
id twice yields a list containing exactly the original ids. -/
theorem toggleLayer_flips_membership (prev : List String) (layerId x : String) :
    (layerId ∈ handleToggleLayer layerId prev ↔ layerId ∉ prev) ∧
    (x ∈ handleToggleLayer layerId (handleToggleLayer layerId prev) ↔ x ∈ prev) ∧
    (x ∈ handleToggleLayer layerId prev
      ↔ ((x ∈ prev ∧ x ≠ layerId) ∨ (x = layerId ∧ layerId ∉ prev))) := by
  by_cases h : layerId ∈ prev
  · have h1 : handleToggleLayer layerId prev = prev.filter (fun id => id ≠ layerId) := by
      simp [handleToggleLayer, h]
    have hnot : layerId ∉ handleToggleLayer layerId prev := by
      rw [h1]; simp [List.mem_filter]
    have h2 : handleToggleLayer layerId (handleToggleLayer layerId prev)
        = prev.filter (fun id => id ≠ layerId) ++ [layerId] := by
      rw [h1]
      simp only [handleToggleLayer]
      rw [if_neg (by rw [← h1]; exact hnot)]
    refine ⟨by simp [hnot, h], ?_, ?_⟩
    · rw [h2]
      simp only [List.mem_append, List.mem_filter, List.mem_singleton,
        decide_eq_true_eq]
      constructor
      · rintro (⟨hx, _⟩ | rfl)
        · exact hx
        · exact h
      · intro hx
        by_cases hxl : x = layerId
        · exact Or.inr hxl
        · exact Or.inl ⟨hx, hxl⟩
    · rw [h1]
      simp only [List.mem_filter, decide_eq_true_eq]
      constructor
      · rintro ⟨hx, hne⟩; exact Or.inl ⟨hx, hne⟩
      · rintro (⟨hx, hne⟩ | ⟨rfl, habs⟩)
        · exact ⟨hx, hne⟩
        · exact absurd h habs
  · have h1 : handleToggleLayer layerId prev = prev ++ [layerId] := by
      simp [handleToggleLayer, h]
    have hmem : layerId ∈ handleToggleLayer layerId prev := by
      rw [h1]; simp
    have h2 : handleToggleLayer layerId (handleToggleLayer layerId prev)
        = (prev ++ [layerId]).filter (fun id => id ≠ layerId) := by
      rw [h1]
      simp only [handleToggleLayer]
      rw [if_pos (by rw [← h1]; exact hmem)]
    refine ⟨by simp [hmem, h], ?_, ?_⟩
    · rw [h2]
      simp only [List.filter_append, List.mem_append, List.mem_filter,
        decide_eq_true_eq]
      constructor
      · rintro (⟨hx, _⟩ | hx)
        · exact hx
        · simp at hx
      · intro hx
        have hne : x ≠ layerId := fun heq => h (heq ▸ hx)
        exact Or.inl ⟨hx, hne⟩
    · rw [h1]
      simp only [List.mem_append, List.mem_singleton]
      constructor
      · rintro (hx | rfl)
        · exact Or.inl ⟨hx, fun heq => h (heq ▸ hx)⟩
        · exact Or.inr ⟨rfl, h⟩
      · rintro (⟨hx, _⟩ | ⟨rfl, _⟩)
        · exact Or.inl hx
        · exact Or.inr rfl

/-! ### C5 — at most one selected property -/

/-- A property as read by the Google-map marker handlers: an id and a
coordinate pair. -/
structure GoogleProperty where
  id : ℕ
  lat : ℚ
  lng : ℚ
deriving DecidableEq

/-- The selection state of `PropertyGoogleMap`: the `selectedProperty` local
state and the `selectedPropertyId` context state. -/
structure SelectionState where
  selectedProperty : Option GoogleProperty
  selectedPropertyId : Option ℕ
deriving DecidableEq

/-- The marker `onClick` handler (`PropertyGoogleMap` lines 569-572):
`setSelectedProperty(property); setSelectedPropertyId(property.id)`. -/
def markerOnClick (p : GoogleProperty) (_s : SelectionState) : SelectionState :=
  { selectedProperty := some p, selectedPropertyId := some p.id }

/-- The `InfoWindow` `onCloseClick` handler (`PropertyGoogleMap` lines
595-598): `setSelectedProperty(null); setSelectedPropertyId(null)`. -/
def infoWindowOnCloseClick (_s : SelectionState) : SelectionState :=
  { selectedProperty := none, selectedPropertyId := none }

/-- A selection-changing user interaction on the Google map. -/
inductive SelectionEvent where
  | markerClick (p : GoogleProperty)
  | closeClick

/-- Apply one selection event. -/
def selectionStep (s : SelectionState) (e : SelectionEvent) : SelectionState :=
  match e with
  | .markerClick p => markerOnClick p s
  | .closeClick => infoWindowOnCloseClick s

/-- Initial selection state: `useState(null)` for both values. -/
def initialSelection : SelectionState :=
  { selectedProperty := none, selectedPropertyId := none }

/-- The selection state after a sequence of interactions. -/
def selectionRun (events : List SelectionEvent) : SelectionState :=
  events.foldl selectionStep initialSelection

/-- How many properties are selected: the selection is one `Option` value. -/
def selectedCount (s : SelectionState) : ℕ :=
  match s.selectedProperty with
  | some _ => 1
  | none => 0

lemma selectionRun_consistent (events : List SelectionEvent) :
    (selectionRun events).selectedPropertyId
      = (selectionRun events).selectedProperty.map GoogleProperty.id := by
  have key : ∀ (es : List SelectionEvent) (s : SelectionState),
      s.selectedPropertyId = s.selectedProperty.map GoogleProperty.id →
      (es.foldl selectionStep s).selectedPropertyId
        = (es.foldl selectionStep s).selectedProperty.map GoogleProperty.id := by
    intro es
    induction es with
    | nil => intro s h; exact h
    | cons e es ih =>
      intro s _
      rw [List.foldl_cons]
      refine ih _ ?_
      cases e <;> simp [selectionStep, markerOnClick, infoWindowOnCloseClick]
  exact key events initialSelection rfl

/-- C5: selection is a single value — clicking a marker sets both the selected
property and the selected property id to that one property, closing the info
window clears both to null, and after any sequence of these interactions at
most one property is selected, with the selected id always that of the
selected property. -/
theorem selection_at_most_one (events : List SelectionEvent)
    (p : GoogleProperty) (s : SelectionState) :
    markerOnClick p s = { selectedProperty := some p, selectedPropertyId := some p.id } ∧
    infoWindowOnCloseClick s = { selectedProperty := none, selectedPropertyId := none } ∧
    selectedCount (selectionRun events) ≤ 1 ∧
    (selectionRun events).selectedPropertyId
      = (selectionRun events).selectedProperty.map GoogleProperty.id := by
  refine ⟨rfl, rfl, ?_, selectionRun_consistent events⟩
  cases h : (selectionRun events).selectedProperty <;> simp [selectedCount, h]

/-! ### C9 — map mode consistent with the display flags -/

/-- The display-flag and map-mode state of `PropertyGoogleMap`. -/
structure GoogleMapModeState where
  showEmirates : Bool
  showAreas : Bool
  mapMode : String
deriving DecidableEq

/-- `handleToggleEmirates` (`PropertyGoogleMap` lines 476-491): set
`showEmirates` and derive the map mode from the new flag and the current
`showAreas`. -/
def handleToggleEmirates (flag : Bool) (s : GoogleMapModeState) : GoogleMapModeState :=
  { showEmirates := flag, showAreas := s.showAreas,
    mapMode :=
      if flag then (if s.showAreas then "hybrid" else "emirates")
      else if s.showAreas then "areas" else "properties" }

/-- `handleToggleAreas` (`PropertyGoogleMap` lines 496-511): set `showAreas`
and derive the map mode from the current `showEmirates` and the new flag. -/
def handleToggleAreas (flag : Bool) (s : GoogleMapModeState) : GoogleMapModeState :=
  { showEmirates := s.showEmirates, showAreas := flag,
    mapMode :=
      if flag then (if s.showEmirates then "hybrid" else "areas")
      else if s.showEmirates then "emirates" else "properties" }

/-- A display toggle on the Google map. -/
inductive ToggleEvent where
  | emirates (flag : Bool)
  | areas (flag : Bool)

/-- Apply one display toggle. -/
def toggleStep (s : GoogleMapModeState) (e : ToggleEvent) : GoogleMapModeState :=
  match e with
  | .emirates f => handleToggleEmirates f s
  | .areas f => handleToggleAreas f s

/-- The state after a sequence of display toggles. -/
def toggleRun (s : GoogleMapModeState) (events : List ToggleEvent) : GoogleMapModeState :=
  events.foldl toggleStep s

/-- The mode determined by the pair of display flags, as the claim states it:
`hybrid` when both, `emirates` when only emirates, `areas` when only areas,
`properties` when neither. -/
def modeOf (em ar : Bool) : String :=
  if em then (if ar then "hybrid" else "emirates")
  else if ar then "areas" else "properties"

lemma toggleStep_consistent (s : GoogleMapModeState) (e : ToggleEvent) :
    (toggleStep s e).mapMode
      = modeOf (toggleStep s e).showEmirates (toggleStep s e).showAreas := by
  cases e with
  | emirates f =>
    cases f <;> cases hs : s.showAreas <;>
      simp [toggleStep, handleToggleEmirates, modeOf, hs]
  | areas f =>
    cases f <;> cases hs : s.showEmirates <;>
      simp [toggleStep, handleToggleAreas, modeOf, hs]

/-- C9: after any sequence of emirates/areas display toggles (from any
starting state), the map mode agrees with the pair of display flags:
`hybrid` iff both shown, `emirates` iff only emirates, `areas` iff only
areas, `properties` iff neither. -/
theorem mapMode_consistent_after_toggles (s : GoogleMapModeState)
    (events : List ToggleEvent) (e : ToggleEvent) :
    (toggleRun s (events ++ [e])).mapMode
      = modeOf (toggleRun s (events ++ [e])).showEmirates
          (toggleRun s (events ++ [e])).showAreas := by
  simp only [toggleRun, List.foldl_append, List.foldl_cons, List.foldl_nil]
  exact toggleStep_consistent _ e

/-! ### C7 — bounds-based requests carry the viewport box -/

/-- A bounding-box query object `{south, west, north, east}`. -/
structure BoundsQuery where
  south : ℚ
  west : ℚ
  north : ℚ
  east : ℚ
deriving DecidableEq

/-- The parameters passed to `loadPropertyMarkers`. -/
structure MarkerFetchParams where
  bounds : BoundsQuery
  limit : ℕ
deriving DecidableEq

/-- The params built by the debounced marker-fetch effect (`PropertyMap`
lines 110-124): `south = mapBounds[0][0]`, `west = mapBounds[0][1]`,
`north = mapBounds[1][0]`, `east = mapBounds[1][1]`, `limit = 100`. -/
def buildMarkerFetchParams (mapBounds : Bounds) : MarkerFetchParams :=
  { bounds := { south := mapBounds.1.1, west := mapBounds.1.2,
                north := mapBounds.2.1, east := mapBounds.2.2 },
    limit := 100 }

/-- A Google Maps `LatLng` corner. -/
structure GoogleLatLng where
  lat : ℚ
  lng : ℚ
deriving DecidableEq

/-- The bounding box built by `loadGisLayers` (`PropertyGoogleMap` lines
279-284) from the map's north-east and south-west corners. -/
def buildGoogleBoundingBox (northEast southWest : GoogleLatLng) : BoundsQuery :=
  { south := southWest.lat, west := southWest.lng,
    north := northEast.lat, east := northEast.lng }

/-- C7: the property-marker fetch sends exactly the south/west/north/east
components of the current `mapBounds` value `[[south, west], [north, east]]`
with the fixed limit 100, and the viewport GIS request carries the box built
from the map's north-east and south-west corners. -/
theorem boundsFetch_carries_viewport (s w n e : ℚ)
    (neCorner swCorner : GoogleLatLng) :
    buildMarkerFetchParams ((s, w), (n, e))
        = { bounds := { south := s, west := w, north := n, east := e },
            limit := 100 } ∧
    buildGoogleBoundingBox neCorner swCorner
        = { south := swCorner.lat, west := swCorner.lng,
            north := neCorner.lat, east := neCorner.lng } :=
  ⟨rfl, rfl⟩

/-! ### C6 — GIS overlays present only when enabled -/

/-- The fixed list of viewport GIS layer types iterated by `loadGisLayers`
(`PropertyGoogleMap` line 287). -/
def gisLayerTypes : List String :=
  ["parcels", "zoning", "schools", "hospitals", "metroStations", "busStops"]

/-- One iteration of the `loadGisLayers` loop (`PropertyGoogleMap` lines
287-401), acting on the set of layer types currently having a
`google.maps.Data` layer on the map (the keys of `gisLayersRef` among the six
types): first the existing layer for this type is removed
(`setMap(null); delete`), then the type is skipped when not enabled
(`continue`); otherwise the GIS data is fetched and, when the fetch resolves
(`fetchOk`), the new layer is put on the map; a rejected fetch is caught,
logged, and leaves the layer absent. -/
def gisLayerLoopStep (enabledLayers : List String) (fetchOk : String → Bool)
    (present : List String) (layerType : String) : List String :=
  let removed := present.filter (fun x => x ≠ layerType)
  if layerType ∈ enabledLayers ∧ fetchOk layerType = true then removed ++ [layerType]
  else removed

/-- The full pass of `loadGisLayers` over the six layer types. -/
def loadGisLayersPass (enabledLayers : List String) (fetchOk : String → Bool)
    (present : List String) : List String :=
  gisLayerTypes.foldl (gisLayerLoopStep enabledLayers fetchOk) present

/-- The `loadGisLayers` effect body (`PropertyGoogleMap` lines 404-406): the
pass runs only under `if (enabledLayers.length > 0)`; otherwise the map
layers are left untouched. -/
def gisLayersEffect (enabledLayers : List String) (fetchOk : String → Bool)
    (present : List String) : List String :=
  if 0 < enabledLayers.length then loadGisLayersPass enabledLayers fetchOk present
  else present

/-- A fetched GeoJSON layer as rendered by the Leaflet `PropertyMap`; the
features are opaque here. -/
structure LeafletGisLayer where
  type : String
  features : List String
deriving DecidableEq

/-- The Leaflet GIS-layer rendering condition (`PropertyMap` lines 596-619):
a fetched layer is rendered iff it has a nonempty feature array and its type
is in the enabled layer list. -/
def renderGisLayer (enabledGisLayers : List String) (layer : LeafletGisLayer) : Bool :=
  if layer.features.isEmpty then false
  else if layer.type ∈ enabledGisLayers then true
  else false

lemma mem_gisLayerLoopStep (enabled : List String) (ok : String → Bool)
    (present : List String) (u t : String) :
    t ∈ gisLayerLoopStep enabled ok present u
      ↔ ((t ∈ present ∧ t ≠ u) ∨ (t = u ∧ u ∈ enabled ∧ ok u = true)) := by
  by_cases hcond : u ∈ enabled ∧ ok u = true
  · simp only [gisLayerLoopStep, if_pos hcond, List.mem_append, List.mem_filter,
      List.mem_singleton, decide_eq_true_eq]
    constructor
    · rintro (⟨hm, hne⟩ | rfl)
      · exact Or.inl ⟨hm, hne⟩
      · exact Or.inr ⟨rfl, hcond⟩
    · rintro (⟨hm, hne⟩ | ⟨rfl, _⟩)
      · exact Or.inl ⟨hm, hne⟩
      · exact Or.inr rfl
  · simp only [gisLayerLoopStep, if_neg hcond, List.mem_filter, decide_eq_true_eq]
    constructor
    · rintro ⟨hm, hne⟩; exact Or.inl ⟨hm, hne⟩
    · rintro (⟨hm, hne⟩ | ⟨rfl, hc⟩)
      · exact ⟨hm, hne⟩
      · exact absurd hc hcond

lemma mem_foldl_gisLayerLoopStep (types : List String) (enabled : List String)
    (ok : String → Bool) (t : String) :
    types.Nodup → ∀ present : List String,
      (t ∈ types.foldl (gisLayerLoopStep enabled ok) present
        ↔ (if t ∈ types then t ∈ enabled ∧ ok t = true else t ∈ present)) := by
  induction types with
  | nil => intro _ present; simp
  | cons u us ih =>
    intro hnd present
    have hu : u ∉ us := (List.nodup_cons.mp hnd).1
    have ihus := ih (List.nodup_cons.mp hnd).2
    rw [List.foldl_cons, ihus (gisLayerLoopStep enabled ok present u)]
    by_cases htus : t ∈ us
    · simp [htus, List.mem_cons.mpr (Or.inr htus)]
    · by_cases htu : t = u
      · subst htu
        rw [if_neg htus, if_pos (List.mem_cons_self _ _), mem_gisLayerLoopStep]
        constructor
        · rintro (⟨_, hne⟩ | ⟨_, hc⟩)
          · exact absurd rfl hne
          · exact hc
        · intro hc; exact Or.inr ⟨rfl, hc⟩
      · rw [if_neg htus, if_neg (by simp [htu, htus]), mem_gisLayerLoopStep]
        constructor
        · rintro (⟨hm, _⟩ | ⟨heq, _⟩)
          · exact hm
          · exact absurd heq htu
        · intro hm; exact Or.inl ⟨hm, htu⟩

/-- C6 counterexample: with the schools layer on the map and the enabled set
made empty, the `loadGisLayers` effect is skipped (`enabledLayers.length > 0`
fails), so the schools layer stays on the map although it is not enabled —
disabling the last enabled layer does not remove its overlay. -/
theorem gisLayersEffect_stale_layer :
    gisLayersEffect [] (fun _ => true) ["schools"] = ["schools"] ∧
    "schools" ∉ ([] : List String) := by
  exact ⟨rfl, by simp⟩

/-- C6 (amended): whenever the enabled set is nonempty (so the pass actually
runs), a viewport layer type has an overlay on the Google map after the
effect iff it is enabled and its fetch succeeded — so disabling a layer
removes it provided some layer remains enabled; and on the Leaflet map a
fetched GeoJSON layer is rendered iff it has features and its type is in the
enabled layer list. -/
theorem gisLayer_present_iff_enabled (enabled : List String)
    (ok : String → Bool) (present : List String) (t : String)
    (henabled : enabled ≠ []) (ht : t ∈ gisLayerTypes)
    (leafletEnabled : List String) (layer : LeafletGisLayer) :
    (t ∈ gisLayersEffect enabled ok present ↔ (t ∈ enabled ∧ ok t = true)) ∧
    (renderGisLayer leafletEnabled layer = true
      ↔ (layer.features ≠ [] ∧ layer.type ∈ leafletEnabled)) := by
  constructor
  · have hlen : 0 < enabled.length := List.length_pos.mpr henabled
    rw [gisLayersEffect, if_pos hlen, loadGisLayersPass,
      mem_foldl_gisLayerLoopStep gisLayerTypes enabled ok t (by decide) present,
      if_pos ht]
  · rw [renderGisLayer]
    by_cases hf : layer.features.isEmpty
    · simp [hf, List.isEmpty_iff.mp hf]
    · by_cases hm : layer.type ∈ leafletEnabled
      · simp [hf, hm, List.isEmpty_iff.not.mp hf]
      · simp [hf, hm]

/-- Witness for the amended C6 theorem at concrete inputs: with only
`parcels` enabled, after the effect the `schools` layer is present iff
`schools` is enabled (it is not), and a Leaflet layer of type `schools` with
one feature renders iff `schools` is in the enabled list. -/
theorem gisLayer_present_iff_enabled_witness :
    ("schools" ∈ gisLayersEffect ["parcels"] (fun _ => true) ["schools"]
      ↔ ("schools" ∈ ["parcels"] ∧ (fun (_ : String) => true) "schools" = true)) ∧
    (renderGisLayer ["parcels"] { type := "schools", features := ["f"] } = true
      ↔ ((["f"] : List String) ≠ [] ∧ "schools" ∈ ["parcels"])) :=
  gisLayer_present_iff_enabled ["parcels"] (fun _ => true) ["schools"] "schools"
    (by decide) (by decide) ["parcels"] { type := "schools", features := ["f"] }

/-! ### C8 — no cancellation of in-flight requests -/

/-- An event of the fetch lifecycle: a bounds-based request is issued, or the
response to an issued request arrives.  Neither `PropertyMap` nor
`PropertyGoogleMap` creates an `AbortController` or any other cancellation
handle, so there is no abort event: a request leaves the in-flight list only
when its response arrives. -/
inductive FetchLifecycleEvent where
  | issue (r : MarkerFetchParams)
  | complete (r : MarkerFetchParams)

/-- The in-flight requests and the shared context state, which each response
overwrites unconditionally on arrival (`loadPropertyMarkers(...)` /
`setGisLayers(layers)` are called with whatever the completed call
returned). -/
structure NetworkState where
  inFlight : List MarkerFetchParams
  store : Option MarkerFetchParams
deriving DecidableEq

/-- One step of the fetch lifecycle. -/
def networkStep (s : NetworkState) (e : FetchLifecycleEvent) : NetworkState :=
  match e with
  | .issue r => { s with inFlight := s.inFlight ++ [r] }
  | .complete r =>
    if r ∈ s.inFlight then { inFlight := s.inFlight.erase r, store := some r }
    else s

/-- The network state after a sequence of lifecycle events, starting with
nothing in flight. -/
def networkRun (events : List FetchLifecycleEvent) : NetworkState :=
  events.foldl networkStep { inFlight := [], store := none }

/-- C8: issuing a second request never cancels the first (both stay in
flight), and when two overlapping requests complete out of order both
responses land, with whichever completes last overwriting the shared state —
the earlier-issued request's response wins the race when it completes
last. -/
theorem lastCompletion_overwrites (r1 r2 : MarkerFetchParams) :
    (networkRun [.issue r1, .issue r2]).inFlight = [r1, r2] ∧
    (networkRun [.issue r1, .issue r2, .complete r2]).store = some r2 ∧
    (networkRun [.issue r1, .issue r2, .complete r2, .complete r1]).store = some r1 ∧
    (networkRun [.issue r1, .issue r2, .complete r2, .complete r1]).inFlight = [] := by
  have h2 : r2 ∈ ([r1, r2] : List MarkerFetchParams) := by simp
  by_cases h : r1 = r2
  · subst h
    refine ⟨rfl, ?_, ?_, ?_⟩ <;>
      simp [networkRun, networkStep, List.erase_cons]
  · have he : ([r1, r2] : List MarkerFetchParams).erase r2 = [r1] := by
      rw [List.erase_cons_tail, List.erase_cons_head]
      simp [h]
    refine ⟨rfl, ?_, ?_, ?_⟩ <;>
      simp [networkRun, networkStep, h2, he, List.erase_cons]

/-! ### C1 — error handling of the fetch effects -/

/-- The outcome of an awaited service call: the promise resolved with a
value, or it rejected with an error message. -/
inductive ServiceResult (α : Type) where
  | ok (value : α)
  | rejected (message : String)

/-- The state touched by the Leaflet `PropertyMap` fetch effects.
`unhandledRejection` records that a promise rejection escaped every `catch`
in the component (an unhandled promise rejection at the host level). -/
structure LeafletGisState where
  gisLayers : Option (List LeafletGisLayer)
  gisLoading : Bool
  gisError : Option String
  emiratesBoundaries : Option String
  areasBoundaries : Option String
  propertyGisData : Option String
  unhandledRejection : Bool
deriving DecidableEq

/-- `fetchEmiratesBoundaries` (`PropertyMap` lines 79-87): the awaited call
is inside `try`; on rejection the `catch` logs and sets the inline message
`'Failed to load emirates boundaries'`. -/
def fetchEmiratesBoundaries (result : ServiceResult String)
    (s : LeafletGisState) : LeafletGisState :=
  match result with
  | .ok d => { s with emiratesBoundaries := some d }
  | .rejected _ => { s with gisError := some "Failed to load emirates boundaries" }

/-- `fetchAreasBoundaries` (`PropertyMap` lines 96-104): the awaited call is
inside `try`; on rejection the `catch` logs and sets the inline message
`'Failed to load area boundaries for <currentEmirate>'`. -/
def fetchAreasBoundaries (currentEmirate : String)
    (result : ServiceResult String) (s : LeafletGisState) : LeafletGisState :=
  match result with
  | .ok d => { s with areasBoundaries := some d }
  | .rejected _ =>
    { s with gisError := some ("Failed to load area boundaries for " ++ currentEmirate) }

/-- `fetchGisData` (`PropertyMap` lines 166-190).  The `try` block runs
`setGisLoading(true); setGisError(null)` and then only *schedules* a 500 ms
timer whose async callback performs the awaited `gisService.getLayers` call;
`setTimeout` discards the callback's promise and the `try`/`catch` has
already finished by the time the callback runs, so a rejection of
`getLayers` is caught by nothing: the `catch` arm that would set
`error.message || 'Failed to load GIS data'` never runs, the rejection
escapes as an unhandled promise rejection, and `gisLoading` stays true. -/
def fetchGisData (result : ServiceResult (List LeafletGisLayer))
    (s : LeafletGisState) : LeafletGisState :=
  let s1 := { s with gisLoading := true, gisError := none }
  match result with
  | .ok layers => { s1 with gisLayers := some layers, gisLoading := false }
  | .rejected _ => { s1 with unhandledRejection := true }

/-- `fetchPropertyGisData` (`PropertyMap` lines 199-207): the awaited call is
inside `try`; on rejection the `catch` logs and sets `propertyGisData` to
null — no inline error message is set. -/
def fetchPropertyGisData (result : ServiceResult String)
    (s : LeafletGisState) : LeafletGisState :=
  match result with
  | .ok d => { s with propertyGisData := some d }
  | .rejected _ => { s with propertyGisData := none }

/-- The state before any fetch. -/
def initialLeafletGisState : LeafletGisState :=
  { gisLayers := none, gisLoading := false, gisError := none,
    emiratesBoundaries := none, areasBoundaries := none,
    propertyGisData := none, unhandledRejection := false }

/-- C1 counterexample: when `gisService.getLayers` rejects, the viewport GIS
fetch leaves the panel without any inline message (`gisError` stays null,
`gisLoading` stays true) and the rejection escapes as an unhandled promise
rejection; and when the property-GIS call rejects, the effect catches it but
sets no inline message either — refuting the claim that every fetch
rejection is caught and surfaced as an inline error state. -/
theorem gisFetch_rejection_escapes :
    (fetchGisData (.rejected "network error") initialLeafletGisState).unhandledRejection
        = true ∧
    (fetchGisData (.rejected "network error") initialLeafletGisState).gisError = none ∧
    (fetchGisData (.rejected "network error") initialLeafletGisState).gisLoading = true ∧
    (fetchPropertyGisData (.rejected "network error") initialLeafletGisState).gisError
        = none ∧
    (fetchPropertyGisData (.rejected "network error") initialLeafletGisState).propertyGisData
        = none :=
  ⟨rfl, rfl, rfl, rfl, rfl⟩

/-- C1 (amended): rejections of the emirates-boundary and area-boundary
fetches are caught in their effects and set inline messages; a rejection of
the property-GIS fetch is caught but only clears the data, with no message;
each per-layer Google GIS fetch rejection is caught and only logged, the
pass completing with the layer absent; but the viewport GIS fetch's
`try`/`catch` covers only the synchronous timer setup, so a rejection of the
service call escapes as an unhandled promise rejection with no inline
message set. -/
theorem fetchErrors_handling (msg emirate : String) (s : LeafletGisState) :
    fetchEmiratesBoundaries (.rejected msg) s
        = { s with gisError := some "Failed to load emirates boundaries" } ∧
    fetchAreasBoundaries emirate (.rejected msg) s
        = { s with gisError := some ("Failed to load area boundaries for " ++ emirate) } ∧
    fetchPropertyGisData (.rejected msg) s = { s with propertyGisData := none } ∧
    (fetchGisData (.rejected msg) s).unhandledRejection = true ∧
    (fetchGisData (.rejected msg) s).gisError = none ∧
    loadGisLayersPass gisLayerTypes (fun _ => false) [] = [] :=
  ⟨rfl, rfl, rfl, rfl, rfl, rfl⟩

/-! ### C2 — debounce timers on bounds changes -/

/-- A change of the map bounds at a given time (milliseconds). -/
structure BoundsChange where
  bounds : Bounds
  time : ℕ
deriving DecidableEq

/-- The marker-fetch debounce state: at most one pending 300 ms timer and
the fetches issued so far. -/
structure DebounceSim where
  pending : Option BoundsChange
  fired : List BoundsChange
deriving DecidableEq

/-- One bounds change against the marker-fetch effect (`PropertyMap` lines
110-128): the effect's cleanup runs `clearTimeout(timer)` when `mapBounds`
changes, so a pending timer set at time `t` issues its fetch only if the
next change arrives at `t + 300` or later; then a fresh 300 ms timer is set
for the new bounds. -/
def markerDebounceStep (s : DebounceSim) (e : BoundsChange) : DebounceSim :=
  match s.pending with
  | none => { pending := some e, fired := s.fired }
  | some p =>
    if e.time < p.time + 300 then { pending := some e, fired := s.fired }
    else { pending := some e, fired := s.fired ++ [p] }

/-- The property-marker fetches issued for a sequence of bounds changes; a
timer still pending when the bounds settle fires 300 ms later. -/
def markerFetchesIssued (events : List BoundsChange) : List Bounds :=
  let s := events.foldl markerDebounceStep { pending := none, fired := [] }
  (match s.pending with
   | none => s.fired
   | some p => s.fired ++ [p]).map BoundsChange.bounds

/-- The viewport GIS timer state: all still-pending 500 ms timers and the
fetches issued so far. -/
structure GisTimerSim where
  pending : List BoundsChange
  fired : List BoundsChange
deriving DecidableEq

/-- One bounds change against the GIS-fetch effect (`PropertyMap` lines
163-193): the `clearTimeout` closure is returned from the async
`fetchGisData` function, whose promise the effect discards, so no 500 ms
timer is ever cancelled — every previously scheduled timer whose deadline
has passed fires, and every one still pending remains pending alongside the
new timer. -/
def gisTimerStep (s : GisTimerSim) (e : BoundsChange) : GisTimerSim :=
  { pending := s.pending.filter (fun p => ¬ (p.time + 500 ≤ e.time)) ++ [e],
    fired := s.fired ++ s.pending.filter (fun p => p.time + 500 ≤ e.time) }

/-- The viewport GIS fetches issued for a sequence of bounds changes; every
timer still pending when the bounds settle fires 500 ms after it was set. -/
def gisFetchesIssued (events : List BoundsChange) : List Bounds :=
  let s := events.foldl gisTimerStep { pending := [], fired := [] }
  (s.fired ++ s.pending).map BoundsChange.bounds

/-- The first of two quick bounds changes. -/
def raceBounds1 : Bounds := ((0, 0), (1, 1))

/-- The second of two quick bounds changes. -/
def raceBounds2 : Bounds := ((0, 0), (2, 2))

/-- C2: evaluating both effects on bounds that change at t = 0 ms and again
at t = 100 ms (well inside both debounce windows): the marker fetch is
debounced as claimed — the first timer is cancelled and exactly one fetch is
issued, for the settled bounds — but the GIS effect issues two fetches, one
of them for the superseded bounds value, because its cleanup is discarded
and the first 500 ms timer still fires. -/
theorem gisDebounce_not_cancelled :
    markerFetchesIssued
        [{ bounds := raceBounds1, time := 0 }, { bounds := raceBounds2, time := 100 }]
      = [raceBounds2] ∧
    gisFetchesIssued
        [{ bounds := raceBounds1, time := 0 }, { bounds := raceBounds2, time := 100 }]
      = [raceBounds1, raceBounds2] :=
  ⟨rfl, rfl⟩

end MapApp
